import Mathlib

/-!
Verification development for the price-tracking core of `src/customgui.py`
(Price-Tracking-Tool). The mutable state of the program is the
`PriceFetcher.products` dictionary, a Python dict mapping a subscription
identity (an `int` produced by `random.randint` in the user flow, or a
`str` read back from `products.json` or typed into the admin entry widget)
to an inner dict mapping product names to prices. Prices flow through the
GUI as raw strings (`entry.get()`), so they are modelled as `String`.

Python dicts are modelled as association lists with first-match lookup;
`dinsert` mirrors dict item assignment (overwrite in place, else append,
matching CPython insertion-order semantics), `derase` mirrors `del`, and
`keysNodup` states the representation invariant that an association list
actually denotes a dict (no duplicate keys).
-/

/-- First-match lookup in an association list; models Python `d[k]` /
`k in d` (Python dict keys are unique, so first match is the match). -/
def dlookup {α β : Type} [DecidableEq α] : List (α × β) → α → Option β
  | [], _ => none
  | (k2, v) :: rest, k => if k2 = k then some v else dlookup rest k

/-- Models Python dict assignment `d[k] = v`: overwrite the entry in place
when the key is present (CPython keeps its position), else append. -/
def dinsert {α β : Type} [DecidableEq α] : List (α × β) → α → β → List (α × β)
  | [], k, v => [(k, v)]
  | (k2, v2) :: rest, k, v =>
    if k2 = k then (k2, v) :: rest else (k2, v2) :: dinsert rest k v

/-- Apply a function to the value stored at a key (first match), leaving
the rest of the list unchanged; models in-place mutation of an inner dict. -/
def dmodify {α β : Type} [DecidableEq α] : List (α × β) → α → (β → β) → List (α × β)
  | [], _, _ => []
  | (k2, v2) :: rest, k, f =>
    if k2 = k then (k2, f v2) :: rest else (k2, v2) :: dmodify rest k f

/-- Remove the first entry with the given key; models Python `del d[k]`
at a key known to be present. -/
def derase {α β : Type} [DecidableEq α] : List (α × β) → α → List (α × β)
  | [], _ => []
  | (k2, v2) :: rest, k => if k2 = k then rest else (k2, v2) :: derase rest k

/-- The association list has pairwise distinct keys, i.e. it denotes a
Python dict. -/
def keysNodup {α β : Type} [DecidableEq α] : List (α × β) → Bool
  | [] => true
  | (k, _) :: rest => (!(rest.any fun e => decide (e.1 = k))) && keysNodup rest

/-- Models Python `list.remove(a)`: remove the first element equal to `a`;
`none` models the `ValueError` raised when no element matches. -/
def listRemove {α : Type} [DecidableEq α] : List α → α → Option (List α)
  | [], _ => none
  | x :: rest, a =>
    if x = a then some rest else (listRemove rest a).map (fun l => x :: l)

/-- A key of the products dict. In the source, keys are `int` when written
by the user flow (`observer.observer_id`) and `str` when read back from
`products.json` or typed into the admin entry widget. Python `int` and
`str` values never compare equal, matching constructor disjointness. -/
inductive JKey where
  | jint : Int → JKey
  | jstr : String → JKey
deriving DecidableEq

/-- How `json.dump` serializes a dict key: `int` keys become their decimal
string form, `str` keys are kept as-is. -/
def keyToString : JKey → String
  | JKey.jint n => toString n
  | JKey.jstr s => s

/-- Whether a key is already a string key. -/
def isStrKey : JKey → Bool
  | JKey.jint _ => false
  | JKey.jstr _ => true

/-- InnerMap dict of `PriceFetcher.products`: product name to price. -/
abbrev InnerMap := List (String × String)

/-- The `PriceFetcher.products` dict: subscription identity to inner dict. -/
abbrev Store := List (JKey × InnerMap)

/-- Representation invariant: the outer list and every inner list denote
Python dicts (no duplicate keys). -/
def storeWF (s : Store) : Bool :=
  keysNodup s && s.all fun e => keysNodup e.2

namespace PriceFetcher

/-- Source `PriceFetcher.get_price` (customgui.py lines 101-104): the inner
dict for the identity, or an empty dict when absent. -/
def get_price (s : Store) (k : JKey) : InnerMap :=
  (dlookup s k).getD []

/-- Source `PriceFetcher.add_product` (customgui.py lines 83-91): if the
identity exists, set the product entry in its inner dict, else create a
fresh singleton inner dict; then `_save_data()`; returns `True`. -/
def add_product (s : Store) (k : JKey) (n p : String) : Store × Bool :=
  match dlookup s k with
  | some _ => (dmodify s k fun inner => dinsert inner n p, true)
  | none => (s ++ [(k, [(n, p)])], true)

/-- Result of `PriceFetcher.update_price`: the returned boolean, the store
afterwards, and the list of snapshots written by `_save_data()` calls. -/
structure UpdateOut where
  ok : Bool
  store : Store
  saves : List Store
deriving DecidableEq

/-- Source `PriceFetcher.update_price` (customgui.py lines 93-99): when
both the identity and the product name exist, overwrite the price, save,
and return `True`; otherwise return `False` with no mutation and no save. -/
def update_price (s : Store) (k : JKey) (n p : String) : UpdateOut :=
  match dlookup s k with
  | some inner =>
    if (dlookup inner n).isSome then
      let s2 := dmodify s k fun i => dinsert i n p
      { ok := true, store := s2, saves := [s2] }
    else
      { ok := false, store := s, saves := [] }
  | none => { ok := false, store := s, saves := [] }

/-- Source `PriceFetcher._save_data` (customgui.py lines 79-81):
`json.dump` writes the dict to `products.json`; dict keys are serialized
as strings (`int` keys become their decimal form). -/
def save_data (s : Store) : List (String × InnerMap) :=
  s.map fun e => (keyToString e.1, e.2)

/-- Source `PriceFetcher._load_data` (customgui.py lines 71-77):
`json.load` parses the file back into a dict whose keys are all strings;
duplicate textual keys collapse with last-wins value and first-wins
position, which is exactly repeated `dinsert` into an initially empty
dict. -/
def load_data (f : List (String × InnerMap)) : Store :=
  f.foldl (fun acc e => dinsert acc (JKey.jstr e.1) e.2) []

end PriceFetcher

/-- Source class `PriceTracker_observer` (customgui.py lines 49-56): one
user's watch on one product, with the randomly drawn identity. -/
structure PriceTracker_observer where
  product_name : String
  observer_id : Int
  price : String
deriving DecidableEq

/-- Model of Python `random.randint(lo, hi)` (inclusive on both ends),
with the pseudo-random source supplied externally as `r`. For `hi` at or
above `lo` the result lies in the closed interval from `lo` to `hi`. -/
def randint (lo hi : Int) (r : Nat) : Int :=
  lo + ((r % (hi - lo + 1).toNat : Nat) : Int)

/-- Source `PriceTracker_observer.__init__` (customgui.py lines 50-53):
stores the product name, draws `observer_id` as `random.randint(1, 1000)`,
and stores the registered price. -/
def mkObserver (product_name price : String) (r : Nat) : PriceTracker_observer :=
  { product_name := product_name, observer_id := randint 1 1000 r, price := price }

namespace PriceTracker

/-- Source `PriceTracker.attach` (customgui.py lines 124-125):
`self.observers.append(observer)`. -/
def attach (l : List PriceTracker_observer) (o : PriceTracker_observer) :
    List PriceTracker_observer :=
  l ++ [o]

/-- Source `PriceTracker.detach` (customgui.py lines 127-128):
`self.observers.remove(observer)`; `none` models the `ValueError` that
`list.remove` raises when no matching element is present. -/
def detach (l : List PriceTracker_observer) (o : PriceTracker_observer) :
    Option (List PriceTracker_observer) :=
  listRemove l o

/-- Source `PriceTracker.notify` (customgui.py lines 130-133): linear scan
over `self.observers`, calling `observer.update(price)` on every observer
whose `observer_id` equals the dispatched one. The returned list records
the deliveries in scan (= attachment) order. -/
def notify : List PriceTracker_observer → Int → String →
    List (PriceTracker_observer × String)
  | [], _, _ => []
  | o :: rest, i, p =>
    if o.observer_id = i then (o, p) :: notify rest i p else notify rest i p

/-- Source `PriceTracker.update_price` (customgui.py lines 135-143): runs
the `ImmediateUpdate` strategy, which calls `PriceFetcher.update_price`
(its boolean result is discarded), then calls `self.notify`. No record is
removed on this path. -/
def update_price (s : Store) (l : List PriceTracker_observer) (oid : Int)
    (n p : String) : Store × List (PriceTracker_observer × String) :=
  ((PriceFetcher.update_price s (JKey.jint oid) n p).store, notify l oid p)

end PriceTracker

/-- Outcome reported by the admin update handler via message boxes. -/
inductive UpdateResult where
  | success
  | updateFailed
  | notFound
  | accessDenied
deriving DecidableEq

/-- Observable outcome of one admin update request: the reported result,
the store afterwards, the snapshots written by `_save_data()` in order,
and the notifications dispatched to observers (each a call of
`observer.update`). -/
structure PipelineOut where
  result : UpdateResult
  store : Store
  saves : List Store
  notes : List (PriceTracker_observer × String)
deriving DecidableEq

/-- Source `PriceFetcher.__repr__` (customgui.py lines 106-107), the admin
view source (`listAllRecords` in the specification): returns the products
dict itself. -/
def listAllRecords (s : Store) : Store := s

/-- Whether the store contains the (identity, product name) pair, i.e.
Python `observer_id in products and product_name in products[observer_id]`. -/
def containsPair (s : Store) (k : JKey) (n : String) : Bool :=
  match dlookup s k with
  | some inner => (dlookup inner n).isSome
  | none => false

namespace ProductManagementSystem

/-- Source `ProductManagementSystem.update_price` (customgui.py lines
357-387), the `applyPriceUpdate` entry point of the specification. The
admin check compares the login entry against the literal string admin;
it is abstracted into the boolean `is_admin`. The identity is the raw
string from the observer-id entry widget; Python truthiness of that
string (`if observer_id and ...`) makes the empty string fail the
presence check. On success the handler deletes the inner entry
(`del products[observer_id][product_name]`) and saves again. No
notification is dispatched anywhere in this handler. -/
def update_price (is_admin : Bool) (s : Store) (oid n p : String) : PipelineOut :=
  if is_admin then
    let user_products := PriceFetcher.get_price s (JKey.jstr oid)
    if oid ≠ "" ∧ (dlookup user_products n).isSome then
      let r := PriceFetcher.update_price s (JKey.jstr oid) n p
      if r.ok then
        let s2 := dmodify r.store (JKey.jstr oid) fun i => derase i n
        { result := UpdateResult.success, store := s2,
          saves := r.saves ++ [s2], notes := [] }
      else
        { result := UpdateResult.updateFailed, store := r.store,
          saves := r.saves, notes := [] }
    else
      { result := UpdateResult.notFound, store := s, saves := [], notes := [] }
  else
    { result := UpdateResult.accessDenied, store := s, saves := [], notes := [] }

end ProductManagementSystem

section DictLemmas

variable {α β : Type} [DecidableEq α]

theorem dlookup_dinsert_self (l : List (α × β)) (k : α) (v : β) :
    dlookup (dinsert l k v) k = some v := by
  induction l with
  | nil => simp [dinsert, dlookup]
  | cons e rest ih =>
    obtain ⟨k2, v2⟩ := e
    by_cases h : k2 = k
    · subst h
      simp [dinsert, dlookup]
    · simp [dinsert, dlookup, h, ih]

theorem dlookup_dinsert_ne (l : List (α × β)) (k k3 : α) (v : β) (h : k3 ≠ k) :
    dlookup (dinsert l k v) k3 = dlookup l k3 := by
  induction l with
  | nil => simp [dinsert, dlookup, Ne.symm h]
  | cons e rest ih =>
    obtain ⟨k2, v2⟩ := e
    by_cases h2 : k2 = k
    · subst h2
      simp [dinsert, dlookup, Ne.symm h]
    · simp [dinsert, dlookup, h2, ih]

theorem dlookup_dmodify_self (l : List (α × β)) (k : α) (f : β → β) (v : β)
    (h : dlookup l k = some v) :
    dlookup (dmodify l k f) k = some (f v) := by
  induction l with
  | nil => simp [dlookup] at h
  | cons e rest ih =>
    obtain ⟨k2, v2⟩ := e
    by_cases h2 : k2 = k
    · subst h2
      simp [dlookup] at h
      subst h
      simp [dmodify, dlookup]
    · simp [dlookup, h2] at h
      simp [dmodify, dlookup, h2, ih h]

theorem dlookup_dmodify_ne (l : List (α × β)) (k k3 : α) (f : β → β) (h : k3 ≠ k) :
    dlookup (dmodify l k f) k3 = dlookup l k3 := by
  induction l with
  | nil => simp [dmodify]
  | cons e rest ih =>
    obtain ⟨k2, v2⟩ := e
    by_cases h2 : k2 = k
    · subst h2
      simp [dmodify, dlookup, Ne.symm h]
    · simp [dmodify, dlookup, h2, ih]

theorem dlookup_append_of_none (l1 l2 : List (α × β)) (k : α)
    (h : dlookup l1 k = none) :
    dlookup (l1 ++ l2) k = dlookup l2 k := by
  induction l1 with
  | nil => simp
  | cons e rest ih =>
    obtain ⟨k2, v2⟩ := e
    by_cases h2 : k2 = k
    · simp [dlookup, h2] at h
    · simp [dlookup, h2] at h ⊢
      exact ih h

theorem dlookup_append_of_some (l1 l2 : List (α × β)) (k : α) (v : β)
    (h : dlookup l1 k = some v) :
    dlookup (l1 ++ l2) k = some v := by
  induction l1 with
  | nil => simp [dlookup] at h
  | cons e rest ih =>
    obtain ⟨k2, v2⟩ := e
    by_cases h2 : k2 = k
    · simp [dlookup, h2] at h ⊢
      exact h
    · simp [dlookup, h2] at h ⊢
      exact ih h

theorem anykey_false_dlookup_none (l : List (α × β)) (k : α)
    (h : (l.any fun e => decide (e.1 = k)) = false) : dlookup l k = none := by
  induction l with
  | nil => simp [dlookup]
  | cons e rest ih =>
    obtain ⟨k2, v2⟩ := e
    simp only [List.any_cons, Bool.or_eq_false_iff, decide_eq_false_iff_not] at h
    simp [dlookup, h.1, ih h.2]

theorem dlookup_derase_self (l : List (α × β)) (k : α) (h : keysNodup l = true) :
    dlookup (derase l k) k = none := by
  induction l with
  | nil => simp [derase, dlookup]
  | cons e rest ih =>
    obtain ⟨k2, v2⟩ := e
    simp only [keysNodup, Bool.and_eq_true, Bool.not_eq_true',
      List.any_eq_false, decide_eq_false_iff_not] at h
    by_cases h2 : k2 = k
    · subst h2
      simp only [derase, if_pos rfl]
      apply anykey_false_dlookup_none
      simp only [List.any_eq_false, decide_eq_false_iff_not]
      exact h.1
    · have hrest : keysNodup rest = true := by
        simp only [keysNodup, Bool.and_eq_true] at *
        exact h.2
      simp [derase, dlookup, h2, ih hrest]

theorem anykey_dinsert (l : List (α × β)) (k k3 : α) (v : β) (h : k ≠ k3) :
    ((dinsert l k v).any fun e => decide (e.1 = k3))
      = (l.any fun e => decide (e.1 = k3)) := by
  induction l with
  | nil => simp [dinsert, h]
  | cons e rest ih =>
    obtain ⟨k2, v2⟩ := e
    by_cases h2 : k2 = k
    · subst h2
      simp [dinsert]
    · simp [dinsert, h2, ih]

theorem keysNodup_dinsert (l : List (α × β)) (k : α) (v : β)
    (h : keysNodup l = true) :
    keysNodup (dinsert l k v) = true := by
  induction l with
  | nil => simp [dinsert, keysNodup]
  | cons e rest ih =>
    obtain ⟨k2, v2⟩ := e
    simp only [keysNodup, Bool.and_eq_true, Bool.not_eq_true',
      List.any_eq_false, decide_eq_false_iff_not] at h
    by_cases h2 : k2 = k
    · subst h2
      simp only [dinsert, if_pos rfl, keysNodup, Bool.and_eq_true,
        Bool.not_eq_true', List.any_eq_false, decide_eq_false_iff_not]
      exact h
    · simp only [dinsert, if_neg h2, keysNodup, Bool.and_eq_true,
        Bool.not_eq_true']
      constructor
      · rw [anykey_dinsert rest k k2 v (fun hh => h2 hh.symm)]
        simp only [List.any_eq_false, decide_eq_false_iff_not]
        exact h.1
      · exact ih h.2

theorem dlookup_mem (l : List (α × β)) (k : α) (v : β)
    (h : dlookup l k = some v) : (k, v) ∈ l := by
  induction l with
  | nil => simp [dlookup] at h
  | cons e rest ih =>
    obtain ⟨k2, v2⟩ := e
    by_cases h2 : k2 = k
    · subst h2
      simp [dlookup] at h
      subst h
      exact List.mem_cons_self _ _
    · simp [dlookup, h2] at h
      exact List.mem_cons_of_mem _ (ih h)

theorem dinsert_eq_append (l : List (α × β)) (k : α) (v : β)
    (h : (l.any fun e => decide (e.1 = k)) = false) :
    dinsert l k v = l ++ [(k, v)] := by
  induction l with
  | nil => simp [dinsert]
  | cons e rest ih =>
    obtain ⟨k2, v2⟩ := e
    simp only [List.any_cons, Bool.or_eq_false_iff, decide_eq_false_iff_not] at h
    simp [dinsert, h.1, ih h.2]

theorem foldl_dinsert_eq_append (l : List (α × β)) (acc : List (α × β))
    (hnd : keysNodup l = true)
    (hdisj : ∀ e ∈ l, (acc.any fun e2 => decide (e2.1 = e.1)) = false) :
    l.foldl (fun a e => dinsert a e.1 e.2) acc = acc ++ l := by
  induction l generalizing acc with
  | nil => simp
  | cons e rest ih =>
    obtain ⟨k, v⟩ := e
    simp only [keysNodup, Bool.and_eq_true, Bool.not_eq_true',
      List.any_eq_false, decide_eq_false_iff_not] at hnd
    have h1 : dinsert acc k v = acc ++ [(k, v)] :=
      dinsert_eq_append acc k v (hdisj (k, v) (List.mem_cons_self _ _))
    have h2 : ∀ e2 ∈ rest,
        (((acc ++ [(k, v)]).any fun e3 => decide (e3.1 = e2.1)) = false) := by
      intro e2 he2
      rw [List.any_append]
      have ha : (acc.any fun e3 => decide (e3.1 = e2.1)) = false :=
        hdisj e2 (List.mem_cons_of_mem _ he2)
      have hb : (([(k, v)] : List (α × β)).any fun e3 => decide (e3.1 = e2.1))
          = false := by
        simp only [List.any_cons, List.any_nil, Bool.or_false,
          decide_eq_false_iff_not]
        intro hkk
        exact hnd.1 e2 he2 (decide_eq_true hkk.symm)
      rw [ha, hb]
      rfl
    calc (((k, v) :: rest).foldl (fun a e => dinsert a e.1 e.2) acc)
        = rest.foldl (fun a e => dinsert a e.1 e.2) (dinsert acc k v) := by
          simp [List.foldl_cons]
      _ = rest.foldl (fun a e => dinsert a e.1 e.2) (acc ++ [(k, v)]) := by
          rw [h1]
      _ = (acc ++ [(k, v)]) ++ rest := ih (acc ++ [(k, v)]) hnd.2 h2
      _ = acc ++ ((k, v) :: rest) := by simp

end DictLemmas

theorem inner_nodup_of_wf (s : Store) (k : JKey) (v : InnerMap)
    (hwf : storeWF s = true) (h : dlookup s k = some v) :
    keysNodup v = true := by
  have hm : (k, v) ∈ s := dlookup_mem s k v h
  simp only [storeWF, Bool.and_eq_true, List.all_eq_true] at hwf
  exact hwf.2 (k, v) hm

theorem notify_eq_filter (l : List PriceTracker_observer) (i : Int) (p : String) :
    PriceTracker.notify l i p
      = (l.filter fun o => decide (o.observer_id = i)).map fun o => (o, p) := by
  induction l with
  | nil => simp [PriceTracker.notify]
  | cons o rest ih =>
    by_cases h : o.observer_id = i
    · simp [PriceTracker.notify, h, ih]
    · simp [PriceTracker.notify, h, ih]

theorem listRemove_not_mem {α : Type} [DecidableEq α] (l : List α) (a : α)
    (h : a ∉ l) : listRemove l a = none := by
  induction l with
  | nil => simp [listRemove]
  | cons x rest ih =>
    simp only [List.mem_cons, not_or] at h
    have hx : x ≠ a := fun hh => h.1 hh.symm
    simp [listRemove, hx, ih h.2]

theorem listRemove_mem {α : Type} [DecidableEq α] (l : List α) (a : α)
    (h : a ∈ l) :
    ∃ l1 l2, l = l1 ++ a :: l2 ∧ a ∉ l1 ∧ listRemove l a = some (l1 ++ l2) := by
  induction l with
  | nil => simp at h
  | cons x rest ih =>
    by_cases hx : x = a
    · subst hx
      exact ⟨[], rest, by simp, by simp, by simp [listRemove]⟩
    · have hmem : a ∈ rest := by
        rcases List.mem_cons.mp h with h1 | h1
        · exact absurd h1.symm hx
        · exact h1
      obtain ⟨l1, l2, e1, e2, e3⟩ := ih hmem
      refine ⟨x :: l1, l2, by simp [e1], ?_, ?_⟩
      · simp only [List.mem_cons, not_or]
        exact ⟨fun hh => hx hh.symm, e2⟩
      · simp [listRemove, hx, e3]

/-- C9: every `PriceTracker_observer`, constructed with a product name and
a registered price, assigns itself an `observer_id` equal to
`random.randint(1, 1000)`, an integer in the closed range from 1 to 1000,
whatever the random source yields. -/
theorem c9_observer_id_in_range (n p : String) (r : Nat) :
    1 ≤ (mkObserver n p r).observer_id ∧ (mkObserver n p r).observer_id ≤ 1000 := by
  have h : r % 1000 < 1000 := Nat.mod_lt r (by norm_num)
  have ht : ((1000 : Int) - 1 + 1).toNat = 1000 := by decide
  simp only [mkObserver, randint, ht]
  omega

/-- C6: `add_product` always succeeds (returns `True`), inserting or
overwriting the (identity, name) entry, and a subsequent `get_price` of
that identity maps the name to the given price. -/
theorem c6_add_product_succeeds (s : Store) (k : JKey) (n p : String) :
    (PriceFetcher.add_product s k n p).2 = true
    ∧ dlookup (PriceFetcher.get_price (PriceFetcher.add_product s k n p).1 k) n
        = some p := by
  cases hs : dlookup s k with
  | some inner =>
    have hlook := dlookup_dmodify_self s k (fun i => dinsert i n p) inner hs
    simp [PriceFetcher.add_product, hs, PriceFetcher.get_price, hlook,
      dlookup_dinsert_self]
  | none =>
    have hap : dlookup (s ++ [(k, [(n, p)])]) k = some [(n, p)] := by
      rw [dlookup_append_of_none s _ k hs]
      simp [dlookup]
    simp [PriceFetcher.add_product, hs, PriceFetcher.get_price, hap, dlookup]

/-- C5: `PriceFetcher.update_price` returns `True` exactly when both the
identity and the name exist; it writes a save exactly when it returns
`True` (the saved snapshot being the resulting store, which then maps the
name to the new price); on `False` the store is unchanged and nothing is
saved. The Lean model is total, reflecting that the source returns a
boolean and raises no exception on either path. -/
theorem c5_update_price_spec (s : Store) (k : JKey) (n p : String) :
    (PriceFetcher.update_price s k n p).ok = containsPair s k n
    ∧ (containsPair s k n = false →
        PriceFetcher.update_price s k n p = ⟨false, s, []⟩)
    ∧ (containsPair s k n = true →
        (PriceFetcher.update_price s k n p).saves
            = [(PriceFetcher.update_price s k n p).store]
        ∧ dlookup
            (PriceFetcher.get_price (PriceFetcher.update_price s k n p).store k) n
            = some p) := by
  cases hs : dlookup s k with
  | none => simp [PriceFetcher.update_price, containsPair, hs]
  | some inner =>
    by_cases hn : (dlookup inner n).isSome
    · have hlook : dlookup (dmodify s k fun i => dinsert i n p) k
          = some (dinsert inner n p) :=
        dlookup_dmodify_self s k (fun i => dinsert i n p) inner hs
      simp [PriceFetcher.update_price, containsPair, hs, hn,
        PriceFetcher.get_price, hlook, dlookup_dinsert_self]
    · simp [PriceFetcher.update_price, containsPair, hs, hn]

/-- Witness for C5 at a concrete present pair. -/
theorem c5_witness :
    containsPair [(JKey.jstr "1", [("a", "2")])] (JKey.jstr "1") "a" = true
    ∧ ((PriceFetcher.update_price [(JKey.jstr "1", [("a", "2")])]
          (JKey.jstr "1") "a" "3").saves
        = [(PriceFetcher.update_price [(JKey.jstr "1", [("a", "2")])]
          (JKey.jstr "1") "a" "3").store]
      ∧ dlookup (PriceFetcher.get_price
          (PriceFetcher.update_price [(JKey.jstr "1", [("a", "2")])]
            (JKey.jstr "1") "a" "3").store (JKey.jstr "1")) "a" = some "3") :=
  ⟨by decide,
   (c5_update_price_spec [(JKey.jstr "1", [("a", "2")])]
      (JKey.jstr "1") "a" "3").2.2 (by decide)⟩

/-- C10: `add_product` is frame-preserving: the inner dict of every other
identity is unchanged, and under the same identity every other product
entry is unchanged, so only the single (identity, name) entry is inserted
or overwritten. -/
theorem c10_add_product_frame (s : Store) (k k3 : JKey) (n n3 p : String) :
    (k3 ≠ k → PriceFetcher.get_price (PriceFetcher.add_product s k n p).1 k3
        = PriceFetcher.get_price s k3)
    ∧ (n3 ≠ n → dlookup
          (PriceFetcher.get_price (PriceFetcher.add_product s k n p).1 k) n3
        = dlookup (PriceFetcher.get_price s k) n3) := by
  constructor
  · intro hk
    cases hs : dlookup s k with
    | some inner =>
      simp [PriceFetcher.add_product, hs, PriceFetcher.get_price,
        dlookup_dmodify_ne s k k3 _ hk]
    | none =>
      cases hs2 : dlookup s k3 with
      | some v =>
        simp [PriceFetcher.add_product, hs, PriceFetcher.get_price,
          dlookup_append_of_some s _ k3 v hs2, hs2]
      | none =>
        have h3 : dlookup (s ++ [(k, [(n, p)])]) k3 = none := by
          rw [dlookup_append_of_none s _ k3 hs2]
          simp [dlookup, Ne.symm hk]
        simp [PriceFetcher.add_product, hs, PriceFetcher.get_price, h3, hs2]
  · intro hn
    cases hs : dlookup s k with
    | some inner =>
      have hlook := dlookup_dmodify_self s k (fun i => dinsert i n p) inner hs
      simp [PriceFetcher.add_product, hs, PriceFetcher.get_price, hlook,
        dlookup_dinsert_ne inner n n3 p hn]
    | none =>
      have hap : dlookup (s ++ [(k, [(n, p)])]) k = some [(n, p)] := by
        rw [dlookup_append_of_none s _ k hs]
        simp [dlookup]
      simp [PriceFetcher.add_product, hs, PriceFetcher.get_price, hap,
        dlookup, Ne.symm hn]

/-- Witness for C10 at concrete distinct identities and names. -/
theorem c10_witness :
    (JKey.jstr "2" ≠ JKey.jstr "1"
      ∧ PriceFetcher.get_price
          (PriceFetcher.add_product
            [(JKey.jstr "1", [("a", "2")]), (JKey.jstr "2", [("c", "4")])]
            (JKey.jstr "1") "a" "9").1 (JKey.jstr "2")
        = PriceFetcher.get_price
            [(JKey.jstr "1", [("a", "2")]), (JKey.jstr "2", [("c", "4")])]
            (JKey.jstr "2"))
    ∧ (("b" : String) ≠ "a"
      ∧ dlookup (PriceFetcher.get_price
          (PriceFetcher.add_product
            [(JKey.jstr "1", [("a", "2")]), (JKey.jstr "2", [("c", "4")])]
            (JKey.jstr "1") "a" "9").1 (JKey.jstr "1")) "b"
        = dlookup (PriceFetcher.get_price
            [(JKey.jstr "1", [("a", "2")]), (JKey.jstr "2", [("c", "4")])]
            (JKey.jstr "1")) "b") :=
  ⟨⟨by decide,
    (c10_add_product_frame
        [(JKey.jstr "1", [("a", "2")]), (JKey.jstr "2", [("c", "4")])]
        (JKey.jstr "1") (JKey.jstr "2") "a" "b" "9").1 (by decide)⟩,
   ⟨by decide,
    (c10_add_product_frame
        [(JKey.jstr "1", [("a", "2")]), (JKey.jstr "2", [("c", "4")])]
        (JKey.jstr "1") (JKey.jstr "2") "a" "b" "9").2 (by decide)⟩⟩

/-- C2: for every (identity, product name) pair absent from the store, the
admin handler reports "not found" and returns with the store exactly
unchanged: no entry added, removed or modified, no save written (and no
notification dispatched). -/
theorem c2_update_absent_not_found (s : Store) (oid n p : String)
    (hp : containsPair s (JKey.jstr oid) n = false) :
    ProductManagementSystem.update_price true s oid n p
      = ⟨UpdateResult.notFound, s, [], []⟩ := by
  cases hs : dlookup s (JKey.jstr oid) with
  | none =>
    simp [ProductManagementSystem.update_price, PriceFetcher.get_price, hs,
      dlookup]
  | some inner =>
    have hn : (dlookup inner n).isSome = false := by
      simpa [containsPair, hs] using hp
    simp [ProductManagementSystem.update_price, PriceFetcher.get_price, hs, hn]

/-- Witness for C2 at a concrete absent pair (identity 999999 never
registered, matching the scenario in the specification). -/
theorem c2_witness :
    containsPair [(JKey.jstr "1", [("a", "2")])] (JKey.jstr "999999")
        "Nonexistent" = false
    ∧ ProductManagementSystem.update_price true [(JKey.jstr "1", [("a", "2")])]
        "999999" "Nonexistent" "10"
      = ⟨UpdateResult.notFound, [(JKey.jstr "1", [("a", "2")])], [], []⟩ :=
  ⟨by decide,
   c2_update_absent_not_found [(JKey.jstr "1", [("a", "2")])]
     "999999" "Nonexistent" "10" (by decide)⟩

/-- C1 counterexample: the pair with the empty-string identity is present
in the store, yet the admin handler reports "not found", because the
guard `if observer_id and product_name in user_products` treats the falsy
empty string as a missing identity. The claim that every present pair
updates successfully is therefore false as stated. -/
theorem c1_counterexample :
    containsPair [(JKey.jstr "", [("w", "1")])] (JKey.jstr "") "w" = true
    ∧ (ProductManagementSystem.update_price true
        [(JKey.jstr "", [("w", "1")])] "" "w" "2").result
      = UpdateResult.notFound := by
  decide

/-- C1 (amended): for every (identity, product name) pair present in the
store whose identity is a non-empty string, the admin handler succeeds:
it first persists the new price (the first saved snapshot maps the pair
to the new price), then deletes the (identity, name) entry and saves
again, and no trace of that pair remains in `listAllRecords()` of the
final store. -/
theorem c1_update_present_succeeds (s : Store) (oid n p : String)
    (hwf : storeWF s = true) (hne : oid ≠ "")
    (hp : containsPair s (JKey.jstr oid) n = true) :
    (ProductManagementSystem.update_price true s oid n p).result
        = UpdateResult.success
    ∧ (ProductManagementSystem.update_price true s oid n p).saves
        = [dmodify s (JKey.jstr oid) fun i => dinsert i n p,
           (ProductManagementSystem.update_price true s oid n p).store]
    ∧ dlookup (PriceFetcher.get_price
          (dmodify s (JKey.jstr oid) fun i => dinsert i n p) (JKey.jstr oid)) n
        = some p
    ∧ containsPair
        (listAllRecords (ProductManagementSystem.update_price true s oid n p).store)
        (JKey.jstr oid) n = false := by
  cases hs : dlookup s (JKey.jstr oid) with
  | none => simp [containsPair, hs] at hp
  | some inner =>
    have hn : (dlookup inner n).isSome = true := by
      simpa [containsPair, hs] using hp
    have hs1 : dlookup (dmodify s (JKey.jstr oid) fun i => dinsert i n p)
        (JKey.jstr oid) = some (dinsert inner n p) :=
      dlookup_dmodify_self s (JKey.jstr oid) (fun i => dinsert i n p) inner hs
    have hs2 : dlookup
        (dmodify (dmodify s (JKey.jstr oid) fun i => dinsert i n p)
          (JKey.jstr oid) fun i => derase i n) (JKey.jstr oid)
        = some (derase (dinsert inner n p) n) :=
      dlookup_dmodify_self _ (JKey.jstr oid) (fun i => derase i n)
        (dinsert inner n p) hs1
    have hnodup : keysNodup (dinsert inner n p) = true :=
      keysNodup_dinsert inner n p (inner_nodup_of_wf s (JKey.jstr oid) inner hwf hs)
    have hgone : dlookup (derase (dinsert inner n p) n) n = none :=
      dlookup_derase_self (dinsert inner n p) n hnodup
    simp [ProductManagementSystem.update_price, PriceFetcher.get_price,
      PriceFetcher.update_price, hs, hn, hne, listAllRecords, containsPair,
      hs1, hs2, hgone, dlookup_dinsert_self]

/-- Witness for C1 at a concrete present pair with a non-empty identity. -/
theorem c1_witness :
    (storeWF [(JKey.jstr "7", [("Widget", "100"), ("Gadget", "50")])] = true
      ∧ ("7" : String) ≠ ""
      ∧ containsPair [(JKey.jstr "7", [("Widget", "100"), ("Gadget", "50")])]
          (JKey.jstr "7") "Widget" = true)
    ∧ ((ProductManagementSystem.update_price true
          [(JKey.jstr "7", [("Widget", "100"), ("Gadget", "50")])]
          "7" "Widget" "80").result = UpdateResult.success
      ∧ (ProductManagementSystem.update_price true
          [(JKey.jstr "7", [("Widget", "100"), ("Gadget", "50")])]
          "7" "Widget" "80").saves
        = [dmodify [(JKey.jstr "7", [("Widget", "100"), ("Gadget", "50")])]
            (JKey.jstr "7") fun i => dinsert i "Widget" "80",
           (ProductManagementSystem.update_price true
            [(JKey.jstr "7", [("Widget", "100"), ("Gadget", "50")])]
            "7" "Widget" "80").store]
      ∧ dlookup (PriceFetcher.get_price
          (dmodify [(JKey.jstr "7", [("Widget", "100"), ("Gadget", "50")])]
            (JKey.jstr "7") fun i => dinsert i "Widget" "80")
          (JKey.jstr "7")) "Widget" = some "80"
      ∧ containsPair (listAllRecords (ProductManagementSystem.update_price true
          [(JKey.jstr "7", [("Widget", "100"), ("Gadget", "50")])]
          "7" "Widget" "80").store) (JKey.jstr "7") "Widget" = false) :=
  ⟨⟨by decide, by decide, by decide⟩,
   c1_update_present_succeeds
     [(JKey.jstr "7", [("Widget", "100"), ("Gadget", "50")])]
     "7" "Widget" "80" (by decide) (by decide) (by decide)⟩

/-- C3: the claimed pipeline order is persist, then dispatch through the
registry, then purge — but the admin handler
`ProductManagementSystem.update_price` (the only caller wired to the
Update Price button) persists and purges without ever dispatching a
notification (its `notes` trace is empty even on success), while
`PriceTracker.update_price`, the only function that does dispatch,
persists and notifies but never removes the satisfied record. Evaluated
at the concrete scenario of the specification (identity 7, product
Widget, new price 80): the GUI path succeeds with zero notifications,
and the tracker path leaves the record in the store with the updated
price still present. -/
theorem c3_no_dispatch_on_success :
    (ProductManagementSystem.update_price true
        [(JKey.jstr "7", [("Widget", "100")])] "7" "Widget" "80").result
      = UpdateResult.success
    ∧ (ProductManagementSystem.update_price true
        [(JKey.jstr "7", [("Widget", "100")])] "7" "Widget" "80").notes = []
    ∧ (PriceTracker.update_price [(JKey.jint 7, [("Widget", "100")])]
        [{ product_name := "Widget", observer_id := 7, price := "100" }]
        7 "Widget" "80").2
      = [({ product_name := "Widget", observer_id := 7, price := "100" }, "80")]
    ∧ containsPair (PriceTracker.update_price [(JKey.jint 7, [("Widget", "100")])]
        [{ product_name := "Widget", observer_id := 7, price := "100" }]
        7 "Widget" "80").1 (JKey.jint 7) "Widget" = true := by
  decide

/-- C4 counterexample: a store holding an integer identity key (as every
key written by the in-session user flow is, since `add_product` is called
with `observer.observer_id`, an `int`) does not survive the round trip:
`json.dump` serializes the key as the string form and `json.load` reads
it back as a string, so the reloaded mapping differs from the original. -/
theorem c4_counterexample :
    PriceFetcher.load_data (PriceFetcher.save_data [(JKey.jint 5, [("x", "10")])])
      ≠ [(JKey.jint 5, [("x", "10")])]
    ∧ PriceFetcher.load_data (PriceFetcher.save_data [(JKey.jint 5, [("x", "10")])])
      = [(JKey.jstr "5", [("x", "10")])] := by
  decide

/-- C4 (amended): `save_data` followed by `load_data` into a fresh store
reproduces the mapping exactly whenever every identity key is already a
string (as is the case for any store that was itself loaded from the
file); integer identity keys are instead replaced by their decimal
string form. -/
theorem c4_roundtrip_string_keys (s : Store)
    (hnd : keysNodup s = true)
    (hstr : (s.all fun e => isStrKey e.1) = true) :
    PriceFetcher.load_data (PriceFetcher.save_data s) = s := by
  have hkeys : ∀ e ∈ s, JKey.jstr (keyToString e.1) = e.1 := by
    intro e he
    have h1 : isStrKey e.1 = true := List.all_eq_true.mp hstr e he
    cases h2 : e.1 with
    | jint m => rw [h2] at h1; simp [isStrKey] at h1
    | jstr x => rfl
  have hmap : s.map (fun e => (JKey.jstr (keyToString e.1), e.2)) = s := by
    have : ∀ e ∈ s, (fun e2 => (JKey.jstr (keyToString e2.1), e2.2)) e = id e := by
      intro e he
      simp only [id]
      rw [Prod.ext_iff]
      exact ⟨hkeys e he, rfl⟩
    rw [List.map_congr_left this, List.map_id]
  have h1 : PriceFetcher.load_data (PriceFetcher.save_data s)
      = (s.map fun e => (JKey.jstr (keyToString e.1), e.2)).foldl
          (fun acc e => dinsert acc e.1 e.2) [] := by
    simp [PriceFetcher.load_data, PriceFetcher.save_data, List.foldl_map]
  rw [h1, hmap]
  have h2 := foldl_dinsert_eq_append s [] hnd (fun e _ => by simp)
  rw [h2]
  rfl

/-- Witness for C4 at a concrete all-string-key store. -/
theorem c4_witness :
    (keysNodup [(JKey.jstr "5", [("x", "10")]), (JKey.jstr "6", [("y", "3")])] = true
      ∧ ([(JKey.jstr "5", [("x", "10")]), (JKey.jstr "6", [("y", "3")])].all
          fun e => isStrKey e.1) = true)
    ∧ PriceFetcher.load_data (PriceFetcher.save_data
        [(JKey.jstr "5", [("x", "10")]), (JKey.jstr "6", [("y", "3")])])
      = [(JKey.jstr "5", [("x", "10")]), (JKey.jstr "6", [("y", "3")])] :=
  ⟨⟨by decide, by decide⟩,
   c4_roundtrip_string_keys
     [(JKey.jstr "5", [("x", "10")]), (JKey.jstr "6", [("y", "3")])]
     (by decide) (by decide)⟩

/-- C7 counterexample: attach the same subscription twice, detach it once
(which succeeds, removing the first copy), and dispatch its identity: the
detached subscription still receives a delivery, refuting the clause that
a subscription that has been detached receives no future dispatch. -/
theorem c7_counterexample :
    PriceTracker.detach
        (PriceTracker.attach (PriceTracker.attach []
          { product_name := "w", observer_id := 1, price := "9" })
          { product_name := "w", observer_id := 1, price := "9" })
        { product_name := "w", observer_id := 1, price := "9" }
      = some [{ product_name := "w", observer_id := 1, price := "9" }]
    ∧ PriceTracker.notify
        [{ product_name := "w", observer_id := 1, price := "9" }] 1 "5"
      = [({ product_name := "w", observer_id := 1, price := "9" }, "5")] := by
  decide

/-- C7 (amended): a dispatch delivers `notify` to exactly the attached
subscriptions whose identity matches, in attachment order; a subscription
receives the notification once per attachment (so one attached twice
receives it twice); and a subscription of which no attachment remains in
the registry receives no delivery — a single detach removes only one
attachment, so a duplicate-attached subscription keeps receiving until
every copy is gone. -/
theorem notify_count (l : List PriceTracker_observer) (i : Int) (p : String)
    (o : PriceTracker_observer) (hid : o.observer_id = i) :
    (PriceTracker.notify l i p).count (o, p) = l.count o := by
  induction l with
  | nil => simp [PriceTracker.notify]
  | cons x rest ih =>
    by_cases hx : x.observer_id = i
    · simp only [PriceTracker.notify, if_pos hx]
      rw [List.count_cons, List.count_cons, ih]
      congr 1
      simp [Prod.ext_iff]
    · have hxo : ¬x = o := fun hh => hx (by rw [hh]; exact hid)
      simp only [PriceTracker.notify, if_neg hx]
      rw [List.count_cons, ih]
      simp [hxo]

theorem c7_notify_matching (l : List PriceTracker_observer) (i : Int)
    (p : String) (o : PriceTracker_observer) :
    PriceTracker.notify l i p
      = ((l.filter fun o2 => decide (o2.observer_id = i)).map fun o2 => (o2, p))
    ∧ (o.observer_id = i →
        (PriceTracker.notify l i p).count (o, p) = l.count o)
    ∧ (o ∉ l → (o, p) ∉ PriceTracker.notify l i p) := by
  refine ⟨notify_eq_filter l i p, ?_, ?_⟩
  · intro hid
    exact notify_count l i p o hid
  · intro hmem hcon
    rw [notify_eq_filter] at hcon
    obtain ⟨a, ha, hap⟩ := List.mem_map.mp hcon
    have : a = o := congrArg Prod.fst hap
    subst this
    exact hmem (List.mem_of_mem_filter ha)

/-- Witness for C7: a subscription whose identity matches the dispatch but
which is not attached receives nothing, and its counts agree. -/
theorem c7_witness :
    (({ product_name := "w", observer_id := 1, price := "9" }
        : PriceTracker_observer).observer_id = 1
      ∧ ({ product_name := "w", observer_id := 1, price := "9" }
        : PriceTracker_observer)
        ∉ [({ product_name := "q", observer_id := 2, price := "3" }
            : PriceTracker_observer)])
    ∧ ((PriceTracker.notify
          [{ product_name := "q", observer_id := 2, price := "3" }] 1 "5").count
        (({ product_name := "w", observer_id := 1, price := "9" }
          : PriceTracker_observer), "5")
      = [({ product_name := "q", observer_id := 2, price := "3" }
          : PriceTracker_observer)].count
          { product_name := "w", observer_id := 1, price := "9" })
    ∧ (({ product_name := "w", observer_id := 1, price := "9" }
          : PriceTracker_observer), "5")
        ∉ PriceTracker.notify
          [{ product_name := "q", observer_id := 2, price := "3" }] 1 "5" :=
  ⟨⟨by decide, by decide⟩,
   (c7_notify_matching
      [{ product_name := "q", observer_id := 2, price := "3" }] 1 "5"
      { product_name := "w", observer_id := 1, price := "9" }).2.1 (by decide),
   (c7_notify_matching
      [{ product_name := "q", observer_id := 2, price := "3" }] 1 "5"
      { product_name := "w", observer_id := 1, price := "9" }).2.2 (by decide)⟩

/-- C8 counterexample: detaching from a registry with no matching entry is
not a silent no-op: `list.remove` raises `ValueError` (modelled by
`none`), refuting the clause that a missing entry neither raises a fault
nor changes the collection. -/
theorem c8_counterexample :
    PriceTracker.detach [] { product_name := "w", observer_id := 1, price := "9" }
      = none := by
  decide

/-- C8 (amended): `detach` removes the first matching entry when one is
present (the registry splits as a prefix without the subscription, the
first occurrence, and a suffix, and exactly that occurrence is removed);
when no entry matches, `list.remove` raises `ValueError` instead of
silently returning, leaving the collection unmodified only because the
exception propagates. -/
theorem c8_detach_first_match (l : List PriceTracker_observer)
    (o : PriceTracker_observer) :
    (o ∉ l → PriceTracker.detach l o = none)
    ∧ (o ∈ l → ∃ l1 l2, l = l1 ++ o :: l2 ∧ o ∉ l1
        ∧ PriceTracker.detach l o = some (l1 ++ l2)) := by
  constructor
  · intro h
    exact listRemove_not_mem l o h
  · intro h
    exact listRemove_mem l o h

/-- Witness for C8: detaching an absent subscription from a non-empty
registry raises (models `ValueError`), and detaching a present one
removes its first occurrence. -/
theorem c8_witness :
    (({ product_name := "w", observer_id := 1, price := "9" }
        : PriceTracker_observer)
      ∉ [({ product_name := "q", observer_id := 2, price := "3" }
          : PriceTracker_observer)])
    ∧ PriceTracker.detach
        [{ product_name := "q", observer_id := 2, price := "3" }]
        { product_name := "w", observer_id := 1, price := "9" } = none :=
  ⟨by decide,
   (c8_detach_first_match
      [{ product_name := "q", observer_id := 2, price := "3" }]
      { product_name := "w", observer_id := 1, price := "9" }).1 (by decide)⟩
